import Mathlib

/-!
# Hotel booking system: backend wiring and the profile form

A shallow embedding of the two source files of the repository

* `backend/server.js`: the Express application, that is the ordered list of
  `app.use` registrations and the global error-handling middleware;
* `frontend/src/pages/Profile.jsx`: the `Profile` React component, that is its
  state, its effect on the auth user, its event handlers, the callback handed to
  the upload widget, and the part of the rendered view that decides which
  events the form accepts.

Definitions come first, theorems after them.
-/

namespace HotelBooking

/-! ## JavaScript values -/

/-- A JavaScript value, as far as `server.js` looks at one. -/
inductive JsVal where
  | undefined
  | null
  | bool (b : Bool)
  | num (n : Int)
  | str (s : String)
  | obj (props : List (String × JsVal))

/-- JavaScript truthiness (`NaN` is not represented). -/
def JsVal.truthy : JsVal → Bool
  | .undefined => false
  | .null => false
  | .bool b => b
  | .num n => n != 0
  | .str s => s != ""
  | .obj _ => true

/-- Look a key up in a property list. -/
def lookupProp (key : String) : List (String × JsVal) → JsVal
  | [] => .undefined
  | (k, v) :: rest => if k = key then v else lookupProp key rest

/-- Property read `v.key`: a `TypeError` on `undefined` and `null`, the stored
value on an object, `undefined` on a primitive (no primitive has a `message`). -/
def JsVal.getProp (v : JsVal) (key : String) : Except String JsVal :=
  match v with
  | .undefined => .error "TypeError: Cannot read properties of undefined"
  | .null => .error "TypeError: Cannot read properties of null"
  | .obj props => .ok (lookupProp key props)
  | _ => .ok .undefined

/-! ## backend/server.js -/

/-- An incoming request: method and path (the path without its query string). -/
structure Request where
  method : String
  path : String

/-- The response under construction: `res.status(c)` sets `statusCode`,
`res.json(v)` sets `body` and ends the response. -/
structure Response where
  statusCode : Nat
  body : Option JsVal

/-- The response object Express hands to the first middleware. -/
def Response.fresh : Response := ⟨200, none⟩

/-- Method `res.status(code)`. -/
def Response.status (res : Response) (code : Nat) : Response :=
  { res with statusCode := code }

/-- Method `res.json(v)`. -/
def Response.json (res : Response) (v : JsVal) : Response :=
  { res with body := some v }

/-- What one run of the error middleware did. -/
structure Handled where
  res : Response
  console : List String
  nextCalled : Bool

/-- The global error-handling middleware of `server.js`:
`(err, req, res, next) => { console.error('Error:', err); res.status(500).json({ message: err.message }); }`.
It never refers to `req` or `next`. -/
def errorHandler (err : JsVal) (_req : Request) (res : Response) : Except String Handled := do
  let message ← err.getProp "message"
  pure ⟨(res.status 500).json (.obj [("message", message)]), ["Error:"], false⟩

/-- The functions registered with `app.use`, by the name they have in `server.js`. -/
inductive LayerId where
  | cors
  | json
  | urlencoded
  | static
  | adminRoutes
  | mapRoutes
  | bookingRoutes
  | reviewRoutes
  | errorHandler
  deriving DecidableEq, Repr

/-- One `app.use` registration: the mount path (`"/"` when none is given), the
function, and whether it takes four arguments (an error handler). -/
structure Layer where
  path : String
  id : LayerId
  handlesError : Bool
  deriving DecidableEq, Repr

/-- Lines 17 to 19: middleware registered without a path. -/
def middleware : List Layer :=
  [⟨"/", .cors, false⟩, ⟨"/", .json, false⟩, ⟨"/", .urlencoded, false⟩]

/-- Lines 22 to 36: the registrations that follow, in source order. -/
def mounts : List Layer :=
  [⟨"/uploads", .static, false⟩,
   ⟨"/api/admin", .adminRoutes, false⟩,
   ⟨"/api/admin", .mapRoutes, false⟩,
   ⟨"/api/booking", .bookingRoutes, false⟩,
   ⟨"/api", .reviewRoutes, false⟩,
   ⟨"/", .errorHandler, true⟩]

/-- The layer stack of `app`, in registration order. -/
def app : List Layer := middleware ++ mounts

/-- Characters of a path, lower-cased: Express routing is case-insensitive
unless `case sensitive routing` is enabled, and `server.js` does not enable it. -/
def lower (s : String) : List Char := s.toList.map Char.toLower

/-- Whether the mount characters `m` match at the start of the path characters
`p` and end on a segment boundary there: the path ends or goes on with `/`. -/
def startsAt : List Char → List Char → Bool
  | [], [] => true
  | [], c :: _ => c == '/'
  | _ :: _, [] => false
  | m :: ms, c :: cs => m == c && startsAt ms cs

/-- Whether a layer mounted at `mount` is offered a request for `path`
(`app.use` semantics: `"/"` matches every path). -/
def mountMatches (mount path : String) : Bool :=
  mount == "/" || startsAt (lower mount) (lower path)

/-- What a middleware or route module does with a request it is offered. -/
inductive Outcome where
  | respond (res : Response)
  | next
  | nextErr (err : JsVal)

/-- Behaviour of the functions that are not defined in `server.js` (the three
library middleware, `express.static` and the four route modules). -/
abbrev Behaviour := LayerId → Request → Outcome

/-- How the handling of a request ends. -/
inductive Final where
  | sent (res : Response)
  | notFound
  | unhandled (err : JsVal)
  | handlerThrew (msg : String)

/-- The error that is pending after `next(e)`: a falsy argument and the string
`'route'` are no error. -/
def pending : JsVal → Option JsVal
  | .str s => if s = "" ∨ s = "route" then none else some (.str s)
  | e => if e.truthy then some e else none

/-- The ordinary layers of `app` whose mount path matches `path`, in
registration order: the functions a request for `path` can be offered to. -/
def offeredTo (path : String) : List LayerId :=
  (app.filter fun l => mountMatches l.path path && !l.handlesError).map Layer.id

/-- Walk the layer stack as the Express router does. `err` is the pending error,
if any. Layers whose path does not match are skipped; with an error pending only
error handlers run, without one only ordinary layers run. Returns the layers that
were offered the request, in order, and the way handling ended. -/
def dispatch (beh : Behaviour) (req : Request) :
    List Layer → Option JsVal → List LayerId × Final
  | [], none => ([], .notFound)
  | [], some e => ([], .unhandled e)
  | l :: rest, none =>
    if mountMatches l.path req.path && !l.handlesError then
      match beh l.id req with
      | .respond res => ([l.id], .sent res)
      | .next =>
        let r := dispatch beh req rest none
        (l.id :: r.1, r.2)
      | .nextErr e =>
        let r := dispatch beh req rest (pending e)
        (l.id :: r.1, r.2)
    else dispatch beh req rest none
  | l :: rest, some e =>
    if mountMatches l.path req.path && l.handlesError then
      match errorHandler e req Response.fresh with
      | .ok h => ([l.id], .sent h.res)
      | .error msg => ([l.id], .handlerThrew msg)
    else dispatch beh req rest (some e)

/-- Handle a request with the application of `server.js`. -/
def handle (beh : Behaviour) (req : Request) : List LayerId × Final :=
  dispatch beh req app none

/-! ## frontend/src/pages/Profile.jsx: data -/

/-- The `userInfo` state object. -/
structure UserInfo where
  name : String
  email : String
  phone : String
  location : String
  profilePicture : String
  deriving DecidableEq, Repr

/-- Initial value of `userInfo` (the argument of `useState`). -/
def UserInfo.initial : UserInfo := ⟨"", "", "", "", ""⟩

/-- The user object of the auth context; each field may be missing. -/
structure User where
  displayName : Option String
  email : Option String
  photoURL : Option String
  deriving DecidableEq, Repr

/-- JavaScript `v || d` for a value that is a string or missing: the empty
string and a missing value both give `d`. -/
def orElse (v : Option String) (d : String) : String :=
  match v with
  | some s => if s = "" then d else s
  | none => d

/-- Browser local storage: string keys, string values. -/
structure Storage where
  items : List (String × String)
  deriving DecidableEq, Repr

/-- Lookup in the list of stored items. -/
def findItem (key : String) : List (String × String) → Option String
  | [] => none
  | (k, v) :: rest => if k = key then some v else findItem key rest

/-- Replace the value of `key`, or add the pair at the end. -/
def putItem (key value : String) : List (String × String) → List (String × String)
  | [] => [(key, value)]
  | (k, v) :: rest => if k = key then (k, value) :: rest else (k, v) :: putItem key value rest

/-- Method `localStorage.getItem(key)`; `none` stands for `null`. -/
def Storage.getItem (ls : Storage) (key : String) : Option String := findItem key ls.items

/-- Method `localStorage.setItem(key, value)`. -/
def Storage.setItem (ls : Storage) (key value : String) : Storage := ⟨putItem key value ls.items⟩

/-- Lower-case hexadecimal digit. -/
def hexDigit (n : Nat) : Char :=
  if n < 10 then Char.ofNat (48 + n) else Char.ofNat (87 + n)

/-- One character inside a JSON string literal, as `JSON.stringify` writes it. -/
def escapeChar (c : Char) : String :=
  if c = '"' then "\\\""
  else if c = '\\' then "\\\\"
  else if c = '\n' then "\\n"
  else if c = '\r' then "\\r"
  else if c = '\t' then "\\t"
  else if c.toNat = 8 then "\\b"
  else if c.toNat = 12 then "\\f"
  else if c.toNat < 32 then
    "\\u00" ++ String.mk [hexDigit (c.toNat / 16), hexDigit (c.toNat % 16)]
  else String.singleton c

/-- A string as a JSON string literal. -/
def quote (s : String) : String :=
  "\"" ++ String.join (s.toList.map escapeChar) ++ "\""

/-- Function `JSON.stringify` on an object whose values are all strings, the
properties in the order they were written. -/
def jsonStringify (fields : List (String × String)) : String :=
  "\x7b" ++ ",".intercalate (fields.map fun kv => quote kv.1 ++ ":" ++ quote kv.2) ++ "\x7d"

/-- The hook state of the component: the four `useState` cells. -/
structure Profile where
  userInfo : UserInfo
  isEditing : Bool
  uploadProgress : Bool
  error : String
  deriving DecidableEq, Repr

/-- Hook state at the first render. -/
def Profile.initial : Profile := ⟨UserInfo.initial, false, false, ""⟩

/-- The `info` object of an upload-widget `success` event. -/
structure UploadInfo where
  secure_url : String
  public_id : String
  deriving DecidableEq, Repr

/-- The `result` argument of the upload-widget callback. -/
structure WidgetResult where
  event : String
  info : Option UploadInfo
  deriving DecidableEq, Repr

/-- Arguments `(error, result)` of the upload-widget callback. `error = none`
stands for a falsy first argument, `result = none` for a missing second one. -/
structure CallbackArgs where
  error : Option String
  result : Option WidgetResult
  deriving DecidableEq, Repr

/-- Everything the component reads or writes. -/
structure World where
  /-- Field `user` of the auth context. -/
  user : Option User
  /-- Identity of the `updateUserProfile` function of the auth context. -/
  authFn : Nat
  /-- The `useState` cells. -/
  state : Profile
  /-- The `userInfo` that the memoised `handleImageUpload` closed over. -/
  captured : UserInfo
  /-- The `updateUserProfile` identity the memoised `handleImageUpload` was built with. -/
  capturedFn : Nat
  /-- Whether `window.cloudinary` is defined. -/
  cloudinary : Bool
  /-- The upload widgets created so far, each with the `userInfo` its callback closed over. -/
  widgets : List UserInfo
  /-- Runs of `handleSave` that await `updateUserProfile`, each with the `userInfo` it closed over. -/
  saves : List UserInfo
  /-- Browser local storage. -/
  storage : Storage
  /-- Lines written with `console.error`. -/
  console : List String
  /-- Errors that escaped a handler (rejections of the promise an async handler returns). -/
  uncaught : List String
  deriving DecidableEq, Repr

/-! ## frontend/src/pages/Profile.jsx: effect and handlers -/

/-- The updater the user effect passes to `setUserInfo`, for a present user. -/
def loadUser (u : User) (ls : Storage) (prev : UserInfo) : UserInfo :=
  { prev with
    name := orElse u.displayName "Guest"
    email := orElse u.email ""
    profilePicture := orElse u.photoURL ""
    phone := orElse (ls.getItem "userPhone") ""
    location := orElse (ls.getItem "userLocation") "" }

/-- The effect with dependency `[user]`: `if (user) setUserInfo(prev => ...)`. -/
def userEffect (w : World) : World :=
  match w.user with
  | some u => { w with state := { w.state with userInfo := loadUser u w.storage w.state.userInfo } }
  | none => w

/-- Memoisation of `handleImageUpload` by `useCallback` with the dependency list
`[userInfo.name, updateUserProfile]`, run at every render: the closure is
rebuilt, over the current `userInfo`, only when one of the two changed. -/
def memoise (w : World) : World :=
  if w.state.userInfo.name ≠ w.captured.name ∨ w.authFn ≠ w.capturedFn then
    { w with captured := w.state.userInfo, capturedFn := w.authFn }
  else w

/-- The object `{ ...prev, [key]: value }`. A key that names none of the five
fields adds a property that no code reads; the five fields are kept. -/
def UserInfo.set (prev : UserInfo) (key value : String) : UserInfo :=
  if key = "name" then { prev with name := value }
  else if key = "email" then { prev with email := value }
  else if key = "phone" then { prev with phone := value }
  else if key = "location" then { prev with location := value }
  else if key = "profilePicture" then { prev with profilePicture := value }
  else prev

/-- Handler `handleChange` for an event whose target has the given `name` and `value`. -/
def handleChange (key value : String) (w : World) : World :=
  { w with state := { w.state with userInfo := w.state.userInfo.set key value } }

/-- Handler `handleEdit`. -/
def handleEdit (w : World) : World :=
  { w with state := { w.state with isEditing := true } }

/-- Handler `handleSave` up to its `await`: `setUploadProgress(true)`, then the
call of `updateUserProfile`; the run goes on when that call settles. The closure
holds the `userInfo` of the render the click happened in. -/
def handleSaveBegin (w : World) : World :=
  { w with
    state := { w.state with uploadProgress := true }
    saves := w.saves ++ [w.state.userInfo] }

/-- The `try` block of `handleSave`, from the point where `updateUserProfile`
settles with `auth`: on a rejection nothing after the `await` runs. -/
def saveTry (info : UserInfo) (auth : Except String Unit) (now : String)
    (ls : Storage) : Except String Storage := do
  auth
  let ls := ls.setItem "userProfileData" (jsonStringify
    [("photoURL", info.profilePicture), ("phone", info.phone),
     ("location", info.location), ("lastUpdated", now)])
  let ls := ls.setItem "userPhone" info.phone
  let ls := ls.setItem "userLocation" info.location
  pure ls

/-- Handler `handleSave` from its `await` on: the rest of `try`, then `catch`
(log only), then `finally`. `info` is the `userInfo` of the closure, `now` the
value of `new Date().toISOString()`. -/
def handleSaveSettle (info : UserInfo) (auth : Except String Unit) (now : String)
    (w : World) : World :=
  let w1 : World :=
    match saveTry info auth now w.storage with
    | .ok ls => { w with storage := ls }
    | .error e => { w with console := w.console ++ ["Error updating profile: " ++ e] }
  { w1 with state := { w1.state with uploadProgress := false, isEditing := false } }

/-- Handler `handleImageUpload`: without `window.cloudinary` it logs and returns,
otherwise it creates a widget whose callback closes over the `userInfo` of the
memoised closure, and opens it. -/
def handleImageUpload (w : World) : World :=
  if w.cloudinary then { w with widgets := w.widgets ++ [w.captured] }
  else { w with console := w.console ++ ["Cloudinary widget is not loaded"] }

/-- The `try` block of the `success` branch of the widget callback; `snap` is the
`userInfo` of the closure. Gives the new `userInfo` and local storage. -/
def uploadTry (snap : UserInfo) (r : WidgetResult) (auth : Except String Unit)
    (now : String) (ls : Storage) : Except String (UserInfo × Storage) := do
  let info ← match r.info with
    | some i => pure i
    | none => throw "TypeError: Cannot read properties of undefined"
  auth
  let updatedUserInfo := { snap with profilePicture := info.secure_url }
  let ls := ls.setItem "userProfileData" (jsonStringify
    [("publicId", info.public_id), ("photoURL", info.secure_url),
     ("phone", snap.phone), ("location", snap.location), ("lastUpdated", now)])
  pure (updatedUserInfo, ls)

/-- The callback handed to `createUploadWidget`, run for one widget event.
`snap` is the `userInfo` of the closure; `auth` is how `updateUserProfile`
settles, which only the `success` branch asks for. All the effects of that
branch come after its `await` and use closure values only. -/
def widgetCallback (snap : UserInfo) (args : CallbackArgs) (auth : Except String Unit)
    (now : String) (w : World) : World :=
  match args.error with
  | some e => { w with console := w.console ++ ["Upload error: " ++ e] }
  | none =>
    match args.result with
    | none => { w with uncaught := w.uncaught ++ ["TypeError: Cannot read properties of undefined"] }
    | some r =>
      let w1 : World :=
        if r.event = "queues-start" then { w with state := { w.state with uploadProgress := true } }
        else w
      if r.event = "success" then
        let w2 : World :=
          match uploadTry snap r auth now w1.storage with
          | .ok (info, ls) => { w1 with state := { w1.state with userInfo := info }, storage := ls }
          | .error e =>
            { w1 with console := w1.console ++ ["Error updating profile with new image: " ++ e] }
        { w2 with state := { w2.state with uploadProgress := false } }
      else w1

/-! ## frontend/src/pages/Profile.jsx: the rendered form -/

/-- The handlers the JSX refers to. -/
inductive Handler where
  | handleChange
  | handleSave
  | handleEdit
  | handleImageUpload
  deriving DecidableEq, Repr

/-- An `input` element of the form. -/
structure InputView where
  name : String
  value : String
  disabled : Bool
  onChange : Option Handler
  deriving DecidableEq, Repr

/-- A `button` element of the form. -/
structure ButtonView where
  onClick : Handler
  disabled : Bool
  label : String
  deriving DecidableEq, Repr

/-- The part of the rendered tree that takes part in events or shows state. -/
structure View where
  uploadButton : Option ButtonView
  errorMessage : Option String
  inputs : List InputView
  mainButton : ButtonView
  deriving DecidableEq, Repr

/-- The JSX returned by `Profile`. -/
def render (p : Profile) : View where
  uploadButton := if p.isEditing then some ⟨.handleImageUpload, false, ""⟩ else none
  errorMessage := if p.error ≠ "" then some p.error else none
  inputs :=
    [⟨"name", p.userInfo.name, !p.isEditing, some .handleChange⟩,
     ⟨"email", p.userInfo.email, true, none⟩,
     ⟨"phone", p.userInfo.phone, !p.isEditing, some .handleChange⟩,
     ⟨"location", p.userInfo.location, !p.isEditing, some .handleChange⟩]
  mainButton :=
    ⟨if p.isEditing then .handleSave else .handleEdit, p.uploadProgress,
     if p.uploadProgress then "Saving..." else if p.isEditing then "Save Changes" else "Edit Profile"⟩

/-- Events a person can cause on the form. -/
inductive FormEvent where
  | change (input : String) (value : String)
  | clickUpload
  | clickMain
  deriving DecidableEq, Repr

/-- The handler the view runs for a form event, if it accepts the event: an
element that is not rendered, is disabled, or has no handler accepts nothing. -/
def View.accepts (v : View) : FormEvent → Option Handler
  | .change input _ =>
    match v.inputs.find? (fun i => i.name = input) with
    | some i => if i.disabled then none else i.onChange
    | none => none
  | .clickUpload =>
    match v.uploadButton with
    | some b => if b.disabled then none else some b.onClick
    | none => none
  | .clickMain => if v.mainButton.disabled then none else some v.mainButton.onClick

/-- Run the handler the view chose for a form event. -/
def runHandler (h : Handler) (e : FormEvent) (w : World) : World :=
  match h, e with
  | .handleChange, .change input value => handleChange input value w
  | .handleChange, _ => w
  | .handleEdit, _ => handleEdit w
  | .handleSave, _ => handleSaveBegin w
  | .handleImageUpload, _ => handleImageUpload w

/-- Everything that can happen to a mounted component. -/
inductive Event where
  /-- A form event; the view decides whether it is accepted. -/
  | form (e : FormEvent)
  /-- The auth context delivers another `user`. -/
  | userChanged (u : Option User)
  /-- The auth context delivers another `updateUserProfile` function. -/
  | authFnChanged (fn : Nat)
  /-- The upload-widget script has loaded and defined `window.cloudinary`. -/
  | scriptLoaded
  /-- The `updateUserProfile` call of the `i`-th pending `handleSave` settles. -/
  | saveSettled (i : Nat) (auth : Except String Unit) (now : String)
  /-- The `i`-th widget calls its callback; `auth` is how the `updateUserProfile` call of a `success` event settles. -/
  | widget (i : Nat) (args : CallbackArgs) (auth : Except String Unit) (now : String)

/-- One event, followed by the render it causes. -/
def step (w : World) : Event → World
  | .form e =>
    match (render w.state).accepts e with
    | some h => memoise (runHandler h e w)
    | none => w
  | .userChanged u => memoise (userEffect (memoise { w with user := u }))
  | .authFnChanged fn => memoise { w with authFn := fn }
  | .scriptLoaded => { w with cloudinary := true }
  | .saveSettled i auth now =>
    match w.saves.get? i with
    | some info => memoise (handleSaveSettle info auth now { w with saves := w.saves.eraseIdx i })
    | none => w
  | .widget i args auth now =>
    match w.widgets.get? i with
    | some snap => memoise (widgetCallback snap args auth now w)
    | none => w

/-- A sequence of events. -/
def run (w : World) (events : List Event) : World := events.foldl step w

/-- The component right after mounting: first render, then the user effect and
the render it causes. -/
def mount (user : Option User) (authFn : Nat) (ls : Storage) : World :=
  memoise (userEffect
    { user := user, authFn := authFn, state := Profile.initial,
      captured := UserInfo.initial, capturedFn := authFn, cloudinary := false,
      widgets := [], saves := [], storage := ls, console := [], uncaught := [] })

/-- The states a mounted component can be in. -/
def Reachable (w : World) : Prop :=
  ∃ user authFn ls events, w = run (mount user authFn ls) events

/-! ## Sample inputs -/

/-- A signed-in user with a display name and no photo. -/
def sampleUser : User := ⟨some "Asha", some "asha@example.com", none⟩

/-- A form in edit mode: mounted for `sampleUser` over empty local storage, Edit
clicked, then a phone number and a location typed. -/
def sampleEditing : World :=
  run (mount (some sampleUser) 0 ⟨[]⟩)
    [.form .clickMain, .form (.change "phone" "9800000000"),
     .form (.change "location" "Pokhara")]

/-- A form that is not in edit mode: mounted for `sampleUser`. -/
def sampleViewing : World := mount (some sampleUser) 0 ⟨[("userPhone", "9811111111")]⟩

/-- An upload-widget `success` event. -/
def sampleSuccess : CallbackArgs :=
  ⟨none, some ⟨"success",
    some ⟨"https://res.cloudinary.com/demo/image/upload/p.png", "hotel-trek-profiles/p"⟩⟩⟩

/-- A form with an open upload widget: mounted for `sampleUser` over empty local
storage, Edit clicked, a phone number typed, then the upload button clicked. -/
def sampleUploading : World :=
  run (mount (some sampleUser) 0 ⟨[]⟩)
    [.scriptLoaded, .form .clickMain, .form (.change "phone" "9800000000"),
     .form .clickUpload]

/-- A user without a display name. -/
def guestUser : User := ⟨none, some "guest@example.com", none⟩

/-- A form mounted before the auth user is known: Edit clicked, the name
`Guest` typed, then the user arrives, and the upload button is clicked. -/
def lateUser : World :=
  run (mount none 0 ⟨[]⟩)
    [.form .clickMain, .form (.change "name" "Guest"), .userChanged (some guestUser),
     .scriptLoaded, .form .clickUpload]

/-! ## Theorems: backend -/

theorem lower_uploads : lower "/uploads" = ['/', 'u', 'p', 'l', 'o', 'a', 'd', 's'] := by decide

theorem lower_admin :
    lower "/api/admin" = ['/', 'a', 'p', 'i', '/', 'a', 'd', 'm', 'i', 'n'] := by decide

theorem lower_booking :
    lower "/api/booking" = ['/', 'a', 'p', 'i', '/', 'b', 'o', 'o', 'k', 'i', 'n', 'g'] := by decide

theorem lower_api : lower "/api" = ['/', 'a', 'p', 'i'] := by decide

/-- Dropping the tail of a mount path after a `/` keeps the match. -/
theorem startsAt_shorter (a b p : List Char) (h : startsAt (a ++ '/' :: b) p = true) :
    startsAt a p = true := by
  induction a generalizing p with
  | nil =>
    cases p with
    | nil => simp [startsAt] at h
    | cons c cs =>
      simp only [List.nil_append, startsAt, Bool.and_eq_true, beq_iff_eq] at h
      simp [startsAt, h.1.symm]
  | cons m ms ih =>
    cases p with
    | nil => simp [startsAt] at h
    | cons c cs =>
      simp only [List.cons_append, startsAt, Bool.and_eq_true] at h
      simp only [startsAt, Bool.and_eq_true]
      exact ⟨h.1, ih cs h.2⟩

/-- Which mount paths match a path under `/api/admin`. -/
theorem matches_under_admin (path : String) (h : mountMatches "/api/admin" path = true) :
    mountMatches "/" path = true ∧ mountMatches "/uploads" path = false ∧
    mountMatches "/api/booking" path = false ∧ mountMatches "/api" path = true := by
  have hs : startsAt ['/', 'a', 'p', 'i', '/', 'a', 'd', 'm', 'i', 'n'] (lower path) = true := by
    simpa [mountMatches, lower_admin] using h
  refine ⟨by simp [mountMatches], ?_, ?_, ?_⟩
  · simp only [mountMatches, lower_uploads]
    rcases hp : lower path with _ | ⟨c1, _ | ⟨c2, cs⟩⟩ <;> rw [hp] at hs <;>
      simp_all [startsAt]
    intro _ h2; exact absurd (h2.trans hs.2.1.symm) (by decide)
  · simp only [mountMatches, lower_booking]
    rcases hp : lower path with
      _ | ⟨c1, _ | ⟨c2, _ | ⟨c3, _ | ⟨c4, _ | ⟨c5, _ | ⟨c6, cs⟩⟩⟩⟩⟩⟩ <;> rw [hp] at hs <;>
      simp_all [startsAt]
    intro _ _ _ _ _ h6; exact absurd (h6.trans hs.2.2.2.2.2.1.symm) (by decide)
  · have := startsAt_shorter ['/', 'a', 'p', 'i'] ['a', 'd', 'm', 'i', 'n'] (lower path) hs
    simp [mountMatches, lower_api, this]

/-- Which mount paths match a path under `/api/booking`. -/
theorem matches_under_booking (path : String) (h : mountMatches "/api/booking" path = true) :
    mountMatches "/" path = true ∧ mountMatches "/uploads" path = false ∧
    mountMatches "/api/admin" path = false ∧ mountMatches "/api" path = true := by
  have hs : startsAt ['/', 'a', 'p', 'i', '/', 'b', 'o', 'o', 'k', 'i', 'n', 'g'] (lower path)
      = true := by
    simpa [mountMatches, lower_booking] using h
  refine ⟨by simp [mountMatches], ?_, ?_, ?_⟩
  · simp only [mountMatches, lower_uploads]
    rcases hp : lower path with _ | ⟨c1, _ | ⟨c2, cs⟩⟩ <;> rw [hp] at hs <;>
      simp_all [startsAt]
    intro _ h2; exact absurd (h2.trans hs.2.1.symm) (by decide)
  · simp only [mountMatches, lower_admin]
    rcases hp : lower path with
      _ | ⟨c1, _ | ⟨c2, _ | ⟨c3, _ | ⟨c4, _ | ⟨c5, _ | ⟨c6, cs⟩⟩⟩⟩⟩⟩ <;> rw [hp] at hs <;>
      simp_all [startsAt]
    intro _ _ _ _ _ h6; exact absurd (h6.trans hs.2.2.2.2.2.1.symm) (by decide)
  · have := startsAt_shorter ['/', 'a', 'p', 'i'] ['b', 'o', 'o', 'k', 'i', 'n', 'g']
      (lower path) hs
    simp [mountMatches, lower_api, this]

/-- The routed part of the stack for a path under `/api/admin`. -/
theorem dispatch_under_admin (beh : Behaviour) (req : Request)
    (h : mountMatches "/api/admin" req.path = true) :
    ∃ rest, (dispatch beh req mounts none).1 = LayerId.adminRoutes :: rest ∧
      (beh .adminRoutes req = .next → ∃ rest2, rest = LayerId.mapRoutes :: rest2 ∧
        (beh .mapRoutes req = .next → ∃ rest3, rest2 = LayerId.reviewRoutes :: rest3)) := by
  obtain ⟨_, h1, h2, h3⟩ := matches_under_admin req.path h
  cases ha : beh .adminRoutes req with
  | respond res => exact ⟨[], by simp [mounts, dispatch, h, h1, ha], by simp⟩
  | nextErr e =>
    exact ⟨_, by simp only [mounts, dispatch, h, h1, ha]; simp; rfl, by simp⟩
  | next =>
    cases hb : beh .mapRoutes req with
    | respond res => exact ⟨_, by simp only [mounts, dispatch, h, h1, ha, hb]; simp; rfl, by simp⟩
    | nextErr e =>
      exact ⟨_, by simp only [mounts, dispatch, h, h1, ha, hb]; simp; rfl, by simp⟩
    | next =>
      cases hc : beh .reviewRoutes req <;>
      exact ⟨_, by simp only [mounts, dispatch, h, h1, h2, h3, ha, hb, hc]; simp; rfl,
        by simp⟩

/-- The routed part of the stack for a path under `/api/booking`. -/
theorem dispatch_under_booking (beh : Behaviour) (req : Request)
    (h : mountMatches "/api/booking" req.path = true) :
    ∃ rest, (dispatch beh req mounts none).1 = LayerId.bookingRoutes :: rest ∧
      (beh .bookingRoutes req = .next → ∃ rest2, rest = LayerId.reviewRoutes :: rest2) := by
  obtain ⟨_, h1, h2, h3⟩ := matches_under_booking req.path h
  cases ha : beh .bookingRoutes req with
  | respond res => exact ⟨[], by simp [mounts, dispatch, h, h1, h2, ha], by simp⟩
  | nextErr e =>
    exact ⟨_, by simp only [mounts, dispatch, h, h1, h2, ha]; simp; rfl, by simp⟩
  | next =>
    cases hc : beh .reviewRoutes req <;>
    exact ⟨_, by simp only [mounts, dispatch, h, h1, h2, h3, ha, hc]; simp; rfl, by simp⟩

/-- When the three library middleware pass a request on, handling goes on with
the mounted part of the stack. -/
theorem handle_after_middleware (beh : Behaviour) (req : Request)
    (h1 : beh .cors req = .next) (h2 : beh .json req = .next)
    (h3 : beh .urlencoded req = .next) :
    handle beh req =
      (.cors :: .json :: .urlencoded :: (dispatch beh req mounts none).1,
       (dispatch beh req mounts none).2) := by
  simp [handle, app, middleware, dispatch, mountMatches, h1, h2, h3]

/-- C1: for every error value the router passes to the global error-handling
middleware (every truthy value), whatever the request and the response object,
the middleware sets status 500 and the JSON body `{message: err.message}`, does
not call `next`, and does not throw; so a request whose handling reaches the
error handler with that error ends with exactly this response. -/
theorem error_handler_responds_500 (err : JsVal) (req : Request) (res : Response)
    (beh : Behaviour) (h : err.truthy = true) :
    ∃ message, err.getProp "message" = .ok message ∧
      errorHandler err req res =
        .ok ⟨⟨500, some (.obj [("message", message)])⟩, ["Error:"], false⟩ ∧
      dispatch beh req app (some err) =
        ([.errorHandler], .sent ⟨500, some (.obj [("message", message)])⟩) := by
  cases err with
  | undefined => simp [JsVal.truthy] at h
  | null => simp [JsVal.truthy] at h
  | bool b => exact ⟨.undefined, rfl, rfl, by simp [app, middleware, mounts, dispatch, mountMatches, errorHandler, JsVal.getProp, Response.status, Response.json, Response.fresh, bind, Except.bind, pure, Except.pure]⟩
  | num n => exact ⟨.undefined, rfl, rfl, by simp [app, middleware, mounts, dispatch, mountMatches, errorHandler, JsVal.getProp, Response.status, Response.json, Response.fresh, bind, Except.bind, pure, Except.pure]⟩
  | str s => exact ⟨.undefined, rfl, rfl, by simp [app, middleware, mounts, dispatch, mountMatches, errorHandler, JsVal.getProp, Response.status, Response.json, Response.fresh, bind, Except.bind, pure, Except.pure]⟩
  | obj props => exact ⟨lookupProp "message" props, rfl, rfl, by simp [app, middleware, mounts, dispatch, mountMatches, errorHandler, JsVal.getProp, Response.status, Response.json, Response.fresh, bind, Except.bind, pure, Except.pure]⟩

/-- Witness for C1 at `new Error("boom")`, a `GET /api/admin/hotels` request. -/
theorem error_handler_responds_500_witness :
    (JsVal.obj [("message", .str "boom")]).truthy = true ∧
    ∃ message, (JsVal.obj [("message", .str "boom")]).getProp "message" = .ok message ∧
      errorHandler (.obj [("message", .str "boom")]) ⟨"GET", "/api/admin/hotels"⟩ Response.fresh =
        .ok ⟨⟨500, some (.obj [("message", message)])⟩, ["Error:"], false⟩ ∧
      dispatch (fun _ _ => .next) ⟨"GET", "/api/admin/hotels"⟩ app
          (some (.obj [("message", .str "boom")])) =
        ([.errorHandler], .sent ⟨500, some (.obj [("message", message)])⟩) :=
  ⟨rfl, error_handler_responds_500 _ _ _ _ rfl⟩

/-- C6: the registrations of lines 22 to 36 are, in order, static files at
`/uploads`, the admin routes at `/api/admin`, the map routes at `/api/admin`,
the booking routes at `/api/booking`, the review routes at `/api` and the error
handler; they follow the three path-less middleware. A path under `/api/admin`
matches the admin, map and review mounts in this order, a path under
`/api/booking` the booking and review mounts; in the walk of the stack the
admin module is offered such a request first, the map module when the admin
module passes it on, and the review module when both (or the booking module)
pass it on. -/
theorem mount_table_order :
    mounts =
      [⟨"/uploads", .static, false⟩, ⟨"/api/admin", .adminRoutes, false⟩,
       ⟨"/api/admin", .mapRoutes, false⟩, ⟨"/api/booking", .bookingRoutes, false⟩,
       ⟨"/api", .reviewRoutes, false⟩, ⟨"/", .errorHandler, true⟩] ∧
    app = middleware ++ mounts ∧
    app.getLast? = some ⟨"/", .errorHandler, true⟩ ∧
    (∀ path, mountMatches "/api/admin" path = true →
      offeredTo path =
        [.cors, .json, .urlencoded, .adminRoutes, .mapRoutes, .reviewRoutes]) ∧
    (∀ path, mountMatches "/api/booking" path = true →
      offeredTo path = [.cors, .json, .urlencoded, .bookingRoutes, .reviewRoutes]) ∧
    (∀ (beh : Behaviour) (req : Request), mountMatches "/api/admin" req.path = true →
      beh .cors req = .next → beh .json req = .next → beh .urlencoded req = .next →
      ∃ rest, (handle beh req).1 = .cors :: .json :: .urlencoded :: .adminRoutes :: rest ∧
        (beh .adminRoutes req = .next → ∃ rest2, rest = .mapRoutes :: rest2 ∧
          (beh .mapRoutes req = .next → ∃ rest3, rest2 = .reviewRoutes :: rest3))) ∧
    (∀ (beh : Behaviour) (req : Request), mountMatches "/api/booking" req.path = true →
      beh .cors req = .next → beh .json req = .next → beh .urlencoded req = .next →
      ∃ rest, (handle beh req).1 = .cors :: .json :: .urlencoded :: .bookingRoutes :: rest ∧
        (beh .bookingRoutes req = .next → ∃ rest2, rest = .reviewRoutes :: rest2)) := by
  refine ⟨rfl, rfl, by decide, ?_, ?_, ?_, ?_⟩
  · intro path h
    obtain ⟨h0, h1, h2, h3⟩ := matches_under_admin path h
    simp [offeredTo, app, middleware, mounts, h, h0, h1, h2, h3]
  · intro path h
    obtain ⟨h0, h1, h2, h3⟩ := matches_under_booking path h
    simp [offeredTo, app, middleware, mounts, h, h0, h1, h2, h3]
  · intro beh req h c1 c2 c3
    obtain ⟨rest, hr, hrest⟩ := dispatch_under_admin beh req h
    exact ⟨rest, by rw [handle_after_middleware beh req c1 c2 c3]; simp [hr], hrest⟩
  · intro beh req h c1 c2 c3
    obtain ⟨rest, hr, hrest⟩ := dispatch_under_booking beh req h
    exact ⟨rest, by rw [handle_after_middleware beh req c1 c2 c3]; simp [hr], hrest⟩

/-! ## Theorems: local storage and rendering helpers -/

theorem findItem_putItem_same (key value : String) (items : List (String × String)) :
    findItem key (putItem key value items) = some value := by
  induction items with
  | nil => simp [putItem, findItem]
  | cons kv rest ih =>
    obtain ⟨k, v⟩ := kv
    by_cases hk : k = key
    · simp [putItem, findItem, hk]
    · simp [putItem, findItem, hk, ih]

theorem findItem_putItem_other (key other value : String) (items : List (String × String))
    (h : key ≠ other) : findItem other (putItem key value items) = findItem other items := by
  induction items with
  | nil => simp [putItem, findItem, h]
  | cons kv rest ih =>
    obtain ⟨k, v⟩ := kv
    by_cases hk : k = key
    · subst hk
      simp [putItem, findItem, h]
    · by_cases ho : k = other
      · subst ho
        simp [putItem, findItem, hk]
      · simp [putItem, findItem, hk, ho, ih]

/-- Reading a key right after writing it gives the value written. -/
theorem getItem_setItem_same (ls : Storage) (key value : String) :
    (ls.setItem key value).getItem key = some value :=
  findItem_putItem_same key value ls.items

/-- Writing one key leaves every other key as it was. -/
theorem getItem_setItem_other (ls : Storage) (key other value : String) (h : key ≠ other) :
    (ls.setItem key value).getItem other = ls.getItem other :=
  findItem_putItem_other key other value ls.items h

/-- For a string value `s || ""` is `s` itself. -/
theorem orElse_some_empty (s : String) : orElse (some s) "" = s := by
  unfold orElse
  split
  · next t h =>
    cases h
    split
    · next h2 => exact h2.symm
    · rfl
  · next h => cases h

theorem memoise_state (w : World) : (memoise w).state = w.state := by
  unfold memoise; split <;> rfl

theorem memoise_storage (w : World) : (memoise w).storage = w.storage := by
  unfold memoise; split <;> rfl

theorem memoise_console (w : World) : (memoise w).console = w.console := by
  unfold memoise; split <;> rfl

theorem memoise_uncaught (w : World) : (memoise w).uncaught = w.uncaught := by
  unfold memoise; split <;> rfl

theorem memoise_saves (w : World) : (memoise w).saves = w.saves := by
  unfold memoise; split <;> rfl

theorem memoise_widgets (w : World) : (memoise w).widgets = w.widgets := by
  unfold memoise; split <;> rfl

theorem memoise_user (w : World) : (memoise w).user = w.user := by
  unfold memoise; split <;> rfl

/-- Local storage after a run of `handleSave` whose auth update succeeded. -/
theorem handleSaveSettle_ok_storage (info : UserInfo) (now : String) (w : World) :
    (handleSaveSettle info (.ok ()) now w).storage =
      ((w.storage.setItem "userProfileData" (jsonStringify
          [("photoURL", info.profilePicture), ("phone", info.phone),
           ("location", info.location), ("lastUpdated", now)])).setItem
        "userPhone" info.phone).setItem "userLocation" info.location := by
  simp [handleSaveSettle, saveTry, bind, Except.bind, pure, Except.pure]

/-- The component state after `handleSave` settles, either way. -/
theorem handleSaveSettle_state (info : UserInfo) (auth : Except String Unit) (now : String)
    (w : World) :
    (handleSaveSettle info auth now w).state =
      { w.state with uploadProgress := false, isEditing := false } := by
  cases auth <;> simp [handleSaveSettle, saveTry, bind, Except.bind, pure, Except.pure]

/-- What a user effect reads back after a successful save of `info`. -/
theorem loadUser_after_save (info prev : UserInfo) (now : String) (w : World) (u : User) :
    (loadUser u (handleSaveSettle info (.ok ()) now w).storage prev).phone = info.phone ∧
    (loadUser u (handleSaveSettle info (.ok ()) now w).storage prev).location =
      info.location := by
  rw [handleSaveSettle_ok_storage]
  constructor
  · simp only [loadUser]
    rw [getItem_setItem_other _ "userLocation" "userPhone" _ (by decide),
      getItem_setItem_same, orElse_some_empty]
  · simp only [loadUser]
    rw [getItem_setItem_same, orElse_some_empty]

/-- A click on the Save button of an idle form in edit mode starts `handleSave`. -/
theorem step_click_save (w : World) (hEdit : w.state.isEditing = true)
    (hIdle : w.state.uploadProgress = false) :
    step w (.form .clickMain) = memoise (handleSaveBegin w) := by
  simp [step, render, View.accepts, runHandler, hEdit, hIdle]

/-- The run of `handleSave` started last is the last pending one. -/
theorem saves_after_click (w : World) :
    (memoise (handleSaveBegin w)).saves.get? w.saves.length = some w.state.userInfo := by
  simp [memoise_saves, handleSaveBegin]

/-- The state after a click on Save and the settling of that run. -/
theorem step_save_settled (w : World) (auth : Except String Unit) (now : String)
    (hEdit : w.state.isEditing = true) (hIdle : w.state.uploadProgress = false) :
    step (step w (.form .clickMain)) (.saveSettled w.saves.length auth now) =
      memoise (handleSaveSettle w.state.userInfo auth now
        { memoise (handleSaveBegin w) with
          saves := (memoise (handleSaveBegin w)).saves.eraseIdx w.saves.length }) := by
  rw [step_click_save w hEdit hIdle]
  simp only [step, saves_after_click]

/-- C2: for every form state in edit mode (whatever strings its phone and
location fields hold, the empty string included), after a click on Save whose
auth update succeeds, a later load for a present user (a fresh mount over the
resulting local storage, or a re-run of the user effect) gives `userInfo.phone`
and `userInfo.location` equal to the phone and location of the form. -/
theorem save_then_load_round_trip (w : World) (now : String) (u : User) (fn : Nat)
    (hEdit : w.state.isEditing = true) (hIdle : w.state.uploadProgress = false) :
    (mount (some u) fn
        (step (step w (.form .clickMain)) (.saveSettled w.saves.length (.ok ()) now)).storage
      ).state.userInfo.phone = w.state.userInfo.phone ∧
    (mount (some u) fn
        (step (step w (.form .clickMain)) (.saveSettled w.saves.length (.ok ()) now)).storage
      ).state.userInfo.location = w.state.userInfo.location ∧
    (step (step (step w (.form .clickMain)) (.saveSettled w.saves.length (.ok ()) now))
        (.userChanged (some u))).state.userInfo.phone = w.state.userInfo.phone ∧
    (step (step (step w (.form .clickMain)) (.saveSettled w.saves.length (.ok ()) now))
        (.userChanged (some u))).state.userInfo.location = w.state.userInfo.location := by
  rw [step_save_settled w (.ok ()) now hEdit hIdle]
  simp only [mount, step, memoise_state, memoise_storage, userEffect, memoise_user]
  refine ⟨?_, ?_, ?_, ?_⟩
  · exact (loadUser_after_save _ _ _ _ _).1
  · exact (loadUser_after_save _ _ _ _ _).2
  · exact (loadUser_after_save _ _ _ _ _).1
  · exact (loadUser_after_save _ _ _ _ _).2

/-- Witness for C2: the sample form, saved and loaded again. -/
theorem save_then_load_round_trip_witness :
    sampleEditing.state.isEditing = true ∧ sampleEditing.state.uploadProgress = false ∧
    sampleEditing.state.userInfo.phone = "9800000000" ∧
    sampleEditing.state.userInfo.location = "Pokhara" ∧
    (mount (some sampleUser) 0
        (step (step sampleEditing (.form .clickMain))
          (.saveSettled sampleEditing.saves.length (.ok ()) "2025-01-01T00:00:00.000Z")).storage
      ).state.userInfo.phone = sampleEditing.state.userInfo.phone ∧
    (mount (some sampleUser) 0
        (step (step sampleEditing (.form .clickMain))
          (.saveSettled sampleEditing.saves.length (.ok ()) "2025-01-01T00:00:00.000Z")).storage
      ).state.userInfo.location = sampleEditing.state.userInfo.location ∧
    (step (step (step sampleEditing (.form .clickMain))
          (.saveSettled sampleEditing.saves.length (.ok ()) "2025-01-01T00:00:00.000Z"))
        (.userChanged (some sampleUser))).state.userInfo.phone =
      sampleEditing.state.userInfo.phone ∧
    (step (step (step sampleEditing (.form .clickMain))
          (.saveSettled sampleEditing.saves.length (.ok ()) "2025-01-01T00:00:00.000Z"))
        (.userChanged (some sampleUser))).state.userInfo.location =
      sampleEditing.state.userInfo.location :=
  ⟨by decide, by decide, by decide, by decide,
    save_then_load_round_trip sampleEditing "2025-01-01T00:00:00.000Z" sampleUser 0
      (by decide) (by decide)⟩

/-- C4: when the auth update called by `handleSave` fails, the run does not
rethrow (nothing escapes the handler, the error is only logged), local storage
is exactly as before, and `userInfo` and the error message state are unchanged;
the same holds for the event of the state machine, for every pending run. -/
theorem save_failure_swallowed (info : UserInfo) (msg now : String) (w : World) (i : Nat) :
    (handleSaveSettle info (.error msg) now w).uncaught = w.uncaught ∧
    (handleSaveSettle info (.error msg) now w).console =
      w.console ++ ["Error updating profile: " ++ msg] ∧
    (handleSaveSettle info (.error msg) now w).storage = w.storage ∧
    (handleSaveSettle info (.error msg) now w).state.userInfo = w.state.userInfo ∧
    (handleSaveSettle info (.error msg) now w).state.error = w.state.error ∧
    (step w (.saveSettled i (.error msg) now)).uncaught = w.uncaught ∧
    (step w (.saveSettled i (.error msg) now)).storage = w.storage ∧
    (step w (.saveSettled i (.error msg) now)).state.userInfo = w.state.userInfo ∧
    (step w (.saveSettled i (.error msg) now)).state.error = w.state.error := by
  refine ⟨rfl, rfl, rfl, rfl, rfl, ?_, ?_, ?_, ?_⟩ <;>
  · simp only [step]
    split
    · simp [memoise_uncaught, memoise_storage, memoise_state, handleSaveSettle, saveTry,
        bind, Except.bind]
    · rfl

/-- C9: `handleSave` sets `uploadProgress` before it awaits the auth update, so
while the run is in flight the Edit/Save button is disabled and accepts no
click; once the run completes, whether the auth update succeeded or failed,
`isEditing` and `uploadProgress` are false and `userInfo` is what it was before
the call. The last part restates this for a click on Save in the state machine. -/
theorem save_resets_flags (info : UserInfo) (auth : Except String Unit) (now : String)
    (w : World) :
    (handleSaveBegin w).state.uploadProgress = true ∧
    (handleSaveBegin w).state.userInfo = w.state.userInfo ∧
    (render (handleSaveBegin w).state).mainButton.disabled = true ∧
    (render (handleSaveBegin w).state).accepts .clickMain = none ∧
    (handleSaveSettle info auth now w).state.isEditing = false ∧
    (handleSaveSettle info auth now w).state.uploadProgress = false ∧
    (handleSaveSettle info auth now w).state.userInfo = w.state.userInfo ∧
    (w.state.isEditing = true → w.state.uploadProgress = false →
      (step w (.form .clickMain)).state = { w.state with uploadProgress := true } ∧
      (render (step w (.form .clickMain)).state).mainButton.disabled = true ∧
      (step (step w (.form .clickMain)) (.saveSettled w.saves.length auth now)).state =
        { w.state with isEditing := false, uploadProgress := false }) := by
  refine ⟨rfl, rfl, rfl, ?_, ?_, ?_, ?_, ?_⟩
  · simp [View.accepts, render, handleSaveBegin]
  · rw [handleSaveSettle_state]
  · rw [handleSaveSettle_state]
  · rw [handleSaveSettle_state]
  · intro hEdit hIdle
    refine ⟨?_, ?_, ?_⟩
    · rw [step_click_save w hEdit hIdle, memoise_state]; rfl
    · rw [step_click_save w hEdit hIdle, memoise_state]; rfl
    · rw [step_save_settled w auth now hEdit hIdle, memoise_state, handleSaveSettle_state]
      simp [memoise_state, handleSaveBegin]

/-- Outside edit mode every input of the form is disabled. -/
theorem inputs_disabled (p : Profile) (hView : p.isEditing = false) :
    ∀ i ∈ (render p).inputs, i.disabled = true := by
  intro i hi
  simp only [render, hView, List.mem_cons, List.mem_singleton, List.not_mem_nil,
    or_false] at hi
  rcases hi with rfl | rfl | rfl | rfl <;> rfl

/-- Outside edit mode the view accepts no change event and no click on the
upload button. -/
theorem accepts_viewing (p : Profile) (e : FormEvent) (h : Handler)
    (hView : p.isEditing = false) (hAcc : (render p).accepts e = some h) :
    e = .clickMain ∧ h = .handleEdit := by
  cases e with
  | change input value =>
    exfalso
    simp only [View.accepts] at hAcc
    split at hAcc
    · next i hf =>
      have hd := inputs_disabled p hView i (List.mem_of_find?_eq_some hf)
      simp [hd] at hAcc
    · cases hAcc
  | clickUpload => simp [View.accepts, render, hView] at hAcc
  | clickMain =>
    simp only [View.accepts, render, hView] at hAcc
    split at hAcc
    · simp at hAcc
    · simp at hAcc
      exact ⟨rfl, hAcc.symm⟩

/-- C3: in every state with `isEditing = false` the name, phone and location
inputs (and the email input) are disabled and the upload button is not rendered;
a form event the view accepts there is the click on the Edit/Save button, it
runs `handleEdit`, and it changes `isEditing` only; no form event, accepted or
not, changes `userInfo` or local storage. -/
theorem viewing_form_is_read_only (w : World) (hView : w.state.isEditing = false) :
    (∀ i ∈ (render w.state).inputs, i.disabled = true) ∧
    (render w.state).uploadButton = none ∧
    (∀ e h, (render w.state).accepts e = some h →
      e = .clickMain ∧ h = .handleEdit ∧
      (step w (.form e)).state = { w.state with isEditing := true }) ∧
    (∀ e, (step w (.form e)).state.userInfo = w.state.userInfo ∧
      (step w (.form e)).storage = w.storage) := by
  refine ⟨?_, ?_, ?_, ?_⟩
  · exact inputs_disabled w.state hView
  · simp [render, hView]
  · intro e h hAcc
    obtain ⟨he, hh⟩ := accepts_viewing w.state e h hView hAcc
    subst he; subst hh
    refine ⟨rfl, rfl, ?_⟩
    simp only [step, hAcc, memoise_state, runHandler, handleEdit]
  · intro e
    simp only [step]
    split
    · next h hAcc =>
      obtain ⟨he, hh⟩ := accepts_viewing w.state e h hView hAcc
      subst he; subst hh
      simp [memoise_state, memoise_storage, runHandler, handleEdit]
    · exact ⟨rfl, rfl⟩

/-- Witness for C3: the freshly mounted sample form. -/
theorem viewing_form_is_read_only_witness :
    sampleViewing.state.isEditing = false ∧
    (∀ i ∈ (render sampleViewing.state).inputs, i.disabled = true) ∧
    (render sampleViewing.state).uploadButton = none ∧
    (∀ e h, (render sampleViewing.state).accepts e = some h →
      e = .clickMain ∧ h = .handleEdit ∧
      (step sampleViewing (.form e)).state = { sampleViewing.state with isEditing := true }) ∧
    (∀ e, (step sampleViewing (.form e)).state.userInfo = sampleViewing.state.userInfo ∧
      (step sampleViewing (.form e)).storage = sampleViewing.storage) :=
  ⟨by decide, viewing_form_is_read_only sampleViewing (by decide)⟩

/-! ## Theorems: the error message state -/

theorem handleImageUpload_state (w : World) : (handleImageUpload w).state = w.state := by
  unfold handleImageUpload; split <;> rfl

theorem userEffect_error (w : World) : (userEffect w).state.error = w.state.error := by
  unfold userEffect; split <;> rfl

theorem widgetCallback_error (snap : UserInfo) (args : CallbackArgs)
    (auth : Except String Unit) (now : String) (w : World) :
    (widgetCallback snap args auth now w).state.error = w.state.error := by
  unfold widgetCallback
  repeat' split
  all_goals try dsimp only
  all_goals repeat' split
  all_goals rfl

theorem runHandler_error (h : Handler) (e : FormEvent) (w : World) :
    (runHandler h e w).state.error = w.state.error := by
  cases h <;> cases e <;>
    simp [runHandler, handleChange, handleEdit, handleSaveBegin, handleImageUpload_state]

/-- No event changes the error message state. -/
theorem step_error (w : World) (e : Event) : (step w e).state.error = w.state.error := by
  cases e with
  | form e =>
    simp only [step]
    split
    · rw [memoise_state, runHandler_error]
    · rfl
  | userChanged u => simp only [step, memoise_state, userEffect_error]
  | authFnChanged fn => simp only [step, memoise_state]
  | scriptLoaded => rfl
  | saveSettled i auth now =>
    simp only [step]
    split
    · rw [memoise_state, handleSaveSettle_state]
    · rfl
  | widget i args auth now =>
    simp only [step]
    split
    · rw [memoise_state, widgetCallback_error]
    · rfl

theorem run_error (events : List Event) (w : World) :
    (run w events).state.error = w.state.error := by
  induction events generalizing w with
  | nil => rfl
  | cons e rest ih =>
    simp only [run, List.foldl_cons] at ih ⊢
    rw [ih, step_error]

theorem mount_error (user : Option User) (authFn : Nat) (ls : Storage) :
    (mount user authFn ls).state.error = "" := by
  simp only [mount, memoise_state, userEffect_error]
  rfl

/-- C7: the error message state is `""` at the first render, no event of the
component changes it (user effect, every form event and so `handleChange`,
`handleEdit`, `handleSave` at its start and when it settles either way, and
every upload-widget callback whatever it carries), hence it is `""` in every
reachable state and the inline error message is never rendered. -/
theorem error_state_always_empty :
    Profile.initial.error = "" ∧
    (∀ w e, (step w e).state.error = w.state.error) ∧
    (∀ snap args auth now w,
      (widgetCallback snap args auth now w).state.error = w.state.error) ∧
    (∀ info auth now w, (handleSaveSettle info auth now w).state.error = w.state.error) ∧
    (∀ w, Reachable w → w.state.error = "" ∧ (render w.state).errorMessage = none) := by
  refine ⟨rfl, step_error, widgetCallback_error, ?_, ?_⟩
  · intro info auth now w
    rw [handleSaveSettle_state]
  · rintro w ⟨user, authFn, ls, events, rfl⟩
    have h : (run (mount user authFn ls) events).state.error = "" := by
      rw [run_error, mount_error]
    exact ⟨h, by simp [render, h]⟩

/-! ## Theorems: the upload widget -/

/-- A callback that carries an error only logs. -/
theorem widgetCallback_error_arg (snap : UserInfo) (msg : String)
    (result : Option WidgetResult) (auth : Except String Unit) (now : String) (w : World) :
    widgetCallback snap ⟨some msg, result⟩ auth now w =
      { w with console := w.console ++ ["Upload error: " ++ msg] } := rfl

/-- The callback clears `uploadProgress` in its `success` branch only. -/
theorem widgetCallback_clears_only_on_success (snap : UserInfo) (args : CallbackArgs)
    (auth : Except String Unit) (now : String) (w : World)
    (hBusy : w.state.uploadProgress = true)
    (hClear : (widgetCallback snap args auth now w).state.uploadProgress = false) :
    args.error = none ∧ ∃ r, args.result = some r ∧ r.event = "success" := by
  unfold widgetCallback at hClear
  split at hClear
  · simp [hBusy] at hClear
  · next he =>
    split at hClear
    · simp [hBusy] at hClear
    · next r hr =>
      refine ⟨he, r, hr, ?_⟩
      by_contra hne
      simp only [hne, if_false] at hClear
      split at hClear <;> simp [hBusy] at hClear

theorem runHandler_keeps_busy (h : Handler) (e : FormEvent) (w : World)
    (hBusy : w.state.uploadProgress = true) :
    (runHandler h e w).state.uploadProgress = true := by
  cases h <;> cases e <;>
    simp [runHandler, handleChange, handleEdit, handleSaveBegin, handleImageUpload_state, hBusy]

theorem userEffect_uploadProgress (w : World) :
    (userEffect w).state.uploadProgress = w.state.uploadProgress := by
  unfold userEffect; split <;> rfl

/-- Only a widget `success` callback or the completion of a `handleSave` run
clears `uploadProgress`. -/
theorem step_clears_busy (w : World) (ev : Event) (hBusy : w.state.uploadProgress = true)
    (hClear : (step w ev).state.uploadProgress = false) :
    (∃ i args auth now r, ev = .widget i args auth now ∧ args.error = none ∧
        args.result = some r ∧ r.event = "success") ∨
    (∃ i auth now, ev = .saveSettled i auth now) := by
  cases ev with
  | form e =>
    exfalso
    simp only [step] at hClear
    split at hClear
    · rw [memoise_state, runHandler_keeps_busy _ _ _ hBusy] at hClear
      cases hClear
    · simp [hBusy] at hClear
  | userChanged u =>
    exfalso
    simp only [step, memoise_state, userEffect_uploadProgress] at hClear
    simp [hBusy] at hClear
  | authFnChanged fn =>
    exfalso
    simp only [step, memoise_state] at hClear
    simp [hBusy] at hClear
  | scriptLoaded =>
    exfalso
    simp [step, hBusy] at hClear
  | saveSettled i auth now => exact Or.inr ⟨i, auth, now, rfl⟩
  | widget i args auth now =>
    left
    simp only [step] at hClear
    split at hClear
    · next snap hs =>
      rw [memoise_state] at hClear
      obtain ⟨he, r, hr, hev⟩ :=
        widgetCallback_clears_only_on_success snap args auth now w hBusy hClear
      exact ⟨i, args, auth, now, r, rfl, he, hr, hev⟩
    · simp [hBusy] at hClear

/-- A `queues-start` callback sets `uploadProgress` and nothing else of the state. -/
theorem widgetCallback_queues_start (snap : UserInfo) (info : Option UploadInfo)
    (auth : Except String Unit) (now : String) (w : World) :
    widgetCallback snap ⟨none, some ⟨"queues-start", info⟩⟩ auth now w =
      { w with state := { w.state with uploadProgress := true } } := by
  simp [widgetCallback]

/-- An error callback of any widget leaves state and local storage alone. -/
theorem step_widget_error (w : World) (j : Nat) (msg : String) (result : Option WidgetResult)
    (auth : Except String Unit) (now : String) :
    (step w (.widget j ⟨some msg, result⟩ auth now)).state = w.state ∧
    (step w (.widget j ⟨some msg, result⟩ auth now)).storage = w.storage := by
  simp only [step]
  split
  · rw [memoise_state, memoise_storage, widgetCallback_error_arg]
    exact ⟨rfl, rfl⟩
  · exact ⟨rfl, rfl⟩

/-- C10: an upload-widget callback that carries an error changes no component
state and writes nothing to local storage (it only logs); the widget callback
clears `uploadProgress` in its `success` branch only; so after `queues-start`
followed by an error callback `uploadProgress` is true and the Edit/Save button
is disabled and accepts no click, and the only events that clear
`uploadProgress` again are a widget `success` callback and the completion of a
`handleSave` run. -/
theorem upload_error_keeps_progress (snap : UserInfo) (msg : String)
    (result : Option WidgetResult) (auth : Except String Unit) (now : String) (w : World) :
    (widgetCallback snap ⟨some msg, result⟩ auth now w).state = w.state ∧
    (widgetCallback snap ⟨some msg, result⟩ auth now w).storage = w.storage ∧
    (∀ args, w.state.uploadProgress = true →
      (widgetCallback snap args auth now w).state.uploadProgress = false →
      args.error = none ∧ ∃ r, args.result = some r ∧ r.event = "success") ∧
    (∀ i j info, w.widgets.get? i = some snap →
      (run w [.widget i ⟨none, some ⟨"queues-start", info⟩⟩ auth now,
              .widget j ⟨some msg, result⟩ auth now]).state =
        { w.state with uploadProgress := true } ∧
      (render (run w [.widget i ⟨none, some ⟨"queues-start", info⟩⟩ auth now,
              .widget j ⟨some msg, result⟩ auth now]).state).mainButton.disabled = true ∧
      (render (run w [.widget i ⟨none, some ⟨"queues-start", info⟩⟩ auth now,
              .widget j ⟨some msg, result⟩ auth now]).state).accepts .clickMain = none ∧
      (run w [.widget i ⟨none, some ⟨"queues-start", info⟩⟩ auth now,
              .widget j ⟨some msg, result⟩ auth now]).storage = w.storage) ∧
    (∀ v ev, v.state.uploadProgress = true → (step v ev).state.uploadProgress = false →
      (∃ i args auth now r, ev = .widget i args auth now ∧ args.error = none ∧
          args.result = some r ∧ r.event = "success") ∨
      (∃ i auth now, ev = .saveSettled i auth now)) := by
  refine ⟨rfl, rfl, ?_, ?_, step_clears_busy⟩
  · intro args hBusy hClear
    exact widgetCallback_clears_only_on_success snap args auth now w hBusy hClear
  · intro i j info hi
    have h1 : step w (.widget i ⟨none, some ⟨"queues-start", info⟩⟩ auth now) =
        memoise { w with state := { w.state with uploadProgress := true } } := by
      simp only [step, hi, widgetCallback_queues_start]
    have hst : (run w [.widget i ⟨none, some ⟨"queues-start", info⟩⟩ auth now,
        .widget j ⟨some msg, result⟩ auth now]).state =
        { w.state with uploadProgress := true } := by
      simp only [run, List.foldl_cons, List.foldl_nil]
      rw [(step_widget_error _ j msg result auth now).1, h1, memoise_state]
    have hls : (run w [.widget i ⟨none, some ⟨"queues-start", info⟩⟩ auth now,
        .widget j ⟨some msg, result⟩ auth now]).storage = w.storage := by
      simp only [run, List.foldl_cons, List.foldl_nil]
      rw [(step_widget_error _ j msg result auth now).2, h1, memoise_storage]
    refine ⟨hst, ?_, ?_, hls⟩
    · rw [hst]; rfl
    · rw [hst]; simp [View.accepts, render]

/-- The `success` branch when the auth update succeeds. -/
theorem widgetCallback_success_ok (snap : UserInfo) (url pid now : String) (w : World) :
    widgetCallback snap ⟨none, some ⟨"success", some ⟨url, pid⟩⟩⟩ (.ok ()) now w =
      { w with
        state := { w.state with
          userInfo := { snap with profilePicture := url }, uploadProgress := false }
        storage := w.storage.setItem "userProfileData" (jsonStringify
          [("publicId", pid), ("photoURL", url), ("phone", snap.phone),
           ("location", snap.location), ("lastUpdated", now)]) } := by
  simp [widgetCallback, uploadTry, bind, Except.bind, pure, Except.pure]

/-- After a render the memoised closure agrees with the state on both
dependencies. -/
theorem memoise_synced (w : World) :
    (memoise w).state.userInfo.name = (memoise w).captured.name ∧
    (memoise w).authFn = (memoise w).capturedFn := by
  unfold memoise
  split
  · exact ⟨rfl, rfl⟩
  · next h =>
    simp only [not_or, not_not] at h
    exact h

/-- A render that finds both dependencies unchanged keeps the closure. -/
theorem memoise_unchanged (w : World) (hName : w.state.userInfo.name = w.captured.name)
    (hFn : w.authFn = w.capturedFn) : memoise w = w := by
  unfold memoise
  simp [hName, hFn]

/-- In edit mode a change of the phone or the location input does not rebuild
the closure of `handleImageUpload`. -/
theorem step_change_keeps_closure (w : World) (input value : String)
    (hEdit : w.state.isEditing = true)
    (hInput : input = "phone" ∨ input = "location") :
    (step (memoise w) (.form (.change input value))).captured = (memoise w).captured := by
  have hs := memoise_synced w
  have hKey : (render (memoise w).state).accepts (.change input value) =
      some .handleChange := by
    rcases hInput with rfl | rfl <;>
      simp [View.accepts, render, memoise_state, hEdit, List.find?]
  simp only [step, hKey, runHandler]
  rw [memoise_unchanged]
  · rfl
  · rcases hInput with rfl | rfl <;> simpa [handleChange, UserInfo.set] using hs.1
  · exact hs.2

/-- C8: on a `success` event whose auth update succeeds, `userInfo` becomes the
snapshot the callback closed over with `profilePicture` set to the event's
`secure_url` and every other field of the snapshot kept; the snapshot is the
`userInfo` of the memoised `handleImageUpload`, which is rebuilt only when
`userInfo.name` or `updateUserProfile` changes; the `userProfileData` blob holds
the event's `public_id` and `secure_url` with the snapshot's phone and location,
and the keys `userPhone` and `userLocation` keep their values. So the phone and
location after the upload are the snapshot's: in the sample run the phone typed
into the form before the upload is gone after it. -/
theorem upload_success_uses_snapshot (snap : UserInfo) (url pid now : String) (w : World) :
    (widgetCallback snap ⟨none, some ⟨"success", some ⟨url, pid⟩⟩⟩ (.ok ()) now w
      ).state.userInfo = { snap with profilePicture := url } ∧
    (widgetCallback snap ⟨none, some ⟨"success", some ⟨url, pid⟩⟩⟩ (.ok ()) now w
      ).state.userInfo.phone = snap.phone ∧
    (widgetCallback snap ⟨none, some ⟨"success", some ⟨url, pid⟩⟩⟩ (.ok ()) now w
      ).state.userInfo.location = snap.location ∧
    (widgetCallback snap ⟨none, some ⟨"success", some ⟨url, pid⟩⟩⟩ (.ok ()) now w
      ).storage = w.storage.setItem "userProfileData" (jsonStringify
        [("publicId", pid), ("photoURL", url), ("phone", snap.phone),
         ("location", snap.location), ("lastUpdated", now)]) ∧
    (widgetCallback snap ⟨none, some ⟨"success", some ⟨url, pid⟩⟩⟩ (.ok ()) now w
      ).storage.getItem "userPhone" = w.storage.getItem "userPhone" ∧
    (widgetCallback snap ⟨none, some ⟨"success", some ⟨url, pid⟩⟩⟩ (.ok ()) now w
      ).storage.getItem "userLocation" = w.storage.getItem "userLocation" ∧
    (∀ i, w.widgets.get? i = some snap →
      (step w (.widget i ⟨none, some ⟨"success", some ⟨url, pid⟩⟩⟩ (.ok ()) now)
        ).state.userInfo = { snap with profilePicture := url }) ∧
    (w.cloudinary = true → (handleImageUpload w).widgets = w.widgets ++ [w.captured]) ∧
    (memoise w).captured =
      (if w.state.userInfo.name ≠ w.captured.name ∨ w.authFn ≠ w.capturedFn
        then w.state.userInfo else w.captured) ∧
    (∀ value, w.state.isEditing = true →
      (step (memoise w) (.form (.change "phone" value))).captured = (memoise w).captured ∧
      (step (memoise w) (.form (.change "location" value))).captured =
        (memoise w).captured) ∧
    (sampleUploading.state.userInfo.phone = "9800000000" ∧
      sampleUploading.widgets = [⟨"Asha", "asha@example.com", "", "", ""⟩] ∧
      (step sampleUploading (.widget 0 sampleSuccess (.ok ()) "2025-01-01T00:00:00.000Z")
        ).state.userInfo.phone = "") := by
  rw [widgetCallback_success_ok]
  refine ⟨rfl, rfl, rfl, rfl, ?_, ?_, ?_, ?_, ?_, ?_, ?_⟩
  · exact getItem_setItem_other _ _ _ _ (by decide)
  · exact getItem_setItem_other _ _ _ _ (by decide)
  · intro i hi
    simp only [step, hi, memoise_state, widgetCallback_success_ok]
  · intro hc
    simp [handleImageUpload, hc]
  · unfold memoise
    split <;> rfl
  · intro value hEdit
    exact ⟨step_change_keeps_closure w "phone" value hEdit (Or.inl rfl),
      step_change_keeps_closure w "location" value hEdit (Or.inr rfl)⟩
  · decide

/-! ## Theorems: the email field -/

/-- C5: the email of `userInfo` comes from the auth user (the user effect sets it
to `user.email`, or `""` when that is missing), the email input is disabled in
every state and has no change handler, and `handleChange` on the name, phone or
location input, `handleEdit` and `handleSave` keep it. The `success` branch of
the upload-widget callback, however, writes back the email of the snapshot its
closure holds: in the run `lateUser` (name typed before the auth user arrives,
so the arrival does not rebuild the closure) the email shown is the user's
before the upload and `""` after it. -/
theorem upload_callback_restores_stale_email :
    (∀ u ls prev, (loadUser u ls prev).email = orElse u.email "") ∧
    (∀ p : Profile, (⟨"email", p.userInfo.email, true, none⟩ : InputView) ∈ (render p).inputs ∧
      ∀ value, (render p).accepts (.change "email" value) = none) ∧
    (∀ w key value, key = "name" ∨ key = "phone" ∨ key = "location" →
      (handleChange key value w).state.userInfo.email = w.state.userInfo.email) ∧
    (∀ w, (handleEdit w).state.userInfo.email = w.state.userInfo.email ∧
      (handleSaveBegin w).state.userInfo.email = w.state.userInfo.email) ∧
    (∀ info auth now w,
      (handleSaveSettle info auth now w).state.userInfo.email = w.state.userInfo.email) ∧
    (∀ snap url pid now w,
      (widgetCallback snap ⟨none, some ⟨"success", some ⟨url, pid⟩⟩⟩ (.ok ()) now w
        ).state.userInfo.email = snap.email) ∧
    (lateUser.user = some guestUser ∧
      lateUser.state.userInfo.email = "guest@example.com" ∧
      lateUser.widgets = [⟨"Guest", "", "", "", ""⟩] ∧
      (render lateUser.state).uploadButton.isSome = true ∧
      (step lateUser (.widget 0 sampleSuccess (.ok ()) "2025-01-01T00:00:00.000Z")
        ).state.userInfo.email = "") := by
  refine ⟨fun _ _ _ => rfl, ?_, ?_, fun _ => ⟨rfl, rfl⟩, ?_, ?_, by decide⟩
  · intro p
    exact ⟨by simp [render], by simp [View.accepts, render, List.find?]⟩
  · intro w key value hk
    rcases hk with rfl | rfl | rfl <;> simp [handleChange, UserInfo.set]
  · intro info auth now w
    rw [handleSaveSettle_state]
  · intro snap url pid now w
    rw [widgetCallback_success_ok]

end HotelBooking
